import Mathlib

/-! Formal model of the `esp32-klimper` synthesizer firmware (C sources under
`src/main/`).  The C code is shallowly embedded in Lean: C `float` values are
idealized as rationals (`ℚ`), so the algebraic structure of every computation
is preserved while IEEE rounding is abstracted away; C `int` values are `ℤ`;
structs become Lean structures; functions that mutate state through pointers
become functions returning the updated state.  Transcendental quantities that
the firmware obtains from `<math.h>` at start-up (the contents of the cosine
and sine wavetables, `sqrt(2)*0.5`, the `mtof` pitch map) are passed in as
parameters, since only their algebraic role matters for the properties below.
-/

namespace Klimper

/-! Section: Wavetable (src/main/dsp/wavetable.h / wavetable.c) -/

/-- A wavetable as in `dsp_wavetable_t`: a nominal `length` plus the sample
array, which holds `length + guards` entries. -/
structure Wavetable where
  length : ℕ
  samples : List ℚ
deriving Repr, DecidableEq

/-- The C cast `(int) index` on a float: truncation toward zero. -/
def intOfRat (x : ℚ) : ℤ :=
  if 0 ≤ x then ⌊x⌋ else ⌈x⌉

/-- Embedding of `dsp_wavetable_read2` (wavetable.h lines 90-96): linear
interpolation between `samples[(int)index]` and the next entry.  The C code
performs no bounds check; an out-of-bounds access is undefined behaviour and
is modelled by the list default value 0 (no theorem below exercises it with
indices outside the table). -/
def dsp_wavetable_read2 (samples : List ℚ) (index : ℚ) : ℚ :=
  let iindex : ℤ := intOfRat index
  let value : ℚ := samples.getD iindex.toNat 0
  let slope : ℚ := samples.getD (iindex.toNat + 1) 0 - value
  value + slope * (index - (iindex : ℚ))

/-- The macro `TWO_PI` from src/main/dsp/utils.h: a literal, not the real π. -/
def TWO_PI : ℚ := 6.2831853

/-- Embedding of `dsp_wavetable_new_custom` (wavetable.c lines 36-53):
sample `func` at `length` points spaced `TWO_PI / length` apart, then append
`guards` copies of the first `guards` samples. -/
def dsp_wavetable_new_custom (length guards : ℕ) (func : ℚ → ℚ) : Wavetable :=
  let core : List ℚ := (List.range length).map (fun i => func ((i : ℚ) * (TWO_PI / (length : ℚ))))
  { length := length, samples := core ++ core.take guards }

/-! Section: Panner (src/main/dsp/pan.h lines 57-65)

The pan unit keeps three globals initialized once at start-up
(`dsp_pan_const = sqrt(2)*0.5` and the two quarter-phase wavetables); they are
gathered in a parameter record here. -/

/-- The globals of pan.h: `dsp_pan_const`, `dsp_pan_wt_cos`, `dsp_pan_wt_sin`. -/
structure PanGlobals where
  pan_const : ℚ
  wt_cos : List ℚ
  wt_sin : List ℚ
deriving Repr, DecidableEq

set_option linter.unusedVariables false in
/-- Embedding of `dsp_pan_stereo` (pan.h lines 57-65).  Exactly as in the C
source: both tables are read at the raw `pan` value and the outputs are
`pan_const * (cos_value ± sin_value)`.  The `sample` argument appears in the
C signature but is never read by the body. -/
def dsp_pan_stereo (g : PanGlobals) (sample pan : ℚ) : ℚ × ℚ :=
  let cos_value := dsp_wavetable_read2 g.wt_cos pan
  let sin_value := dsp_wavetable_read2 g.wt_sin pan
  (g.pan_const * (cos_value + sin_value), g.pan_const * (cos_value - sin_value))

/-- C1: the claim states `left = sample * read_interpolated(cos_table, idx)`
and `right = sample * read_interpolated(sin_table, idx)` with
`idx = (pan+1) * 0.125 * table_length`, hence outputs scaling linearly with
the sample and vanishing at `sample = 0`.  The code does neither: this theorem
shows that `dsp_pan_stereo` produces the same pair of outputs for every value
of its `sample` argument (the body never reads it), so the outputs cannot be
`sample`-proportional and are in general nonzero at `sample = 0`. -/
theorem c1_pan_output_independent_of_sample (g : PanGlobals) (s p : ℚ) :
    dsp_pan_stereo g s p = dsp_pan_stereo g 0 p := rfl

/-! Section: Worker-task quantization (src/main/main.c lines 186-196)

The tail of `dsp_task` copies the float DSP buffer into the hardware buffer:
clamp to [-1, 1], multiply by 32767, round (`roundf`, ties away from zero),
and store through an `int16_t` cast. -/

/-- The clamp from main.c lines 192-193: `if (sample < -1.0f) sample = -1.0f;
else if (sample > 1.0f) sample = 1.0f;`. -/
def dspTaskClamp (sample : ℚ) : ℚ :=
  if sample < -1 then -1 else if sample > 1 then 1 else sample

/-- C `roundf`: round to nearest integer, ties away from zero. -/
def roundfAwayFromZero (x : ℚ) : ℤ :=
  if 0 ≤ x then ⌊x + 1/2⌋ else ⌈x - 1/2⌉

/-- The C cast `(int16_t) n` applied to an integer value: reduce modulo 2^16
into [-2^15, 2^15). -/
def int16OfInt (n : ℤ) : ℤ :=
  (n + 2 ^ 15) % 2 ^ 16 - 2 ^ 15

/-- One sample of the copy loop of `dsp_task` (main.c line 186-196):
`tx_buffer.data[i] = (int16_t) (roundf(32767.0f * sample));` after the clamp. -/
def dsp_task_quantize (sample : ℚ) : ℤ :=
  int16OfInt (roundfAwayFromZero (32767 * dspTaskClamp sample))

/-- The whole copy loop: index `i` runs while `i < CONFIG_AUDIO_N_SAMPLES_BUFFER`
(the length of `dsp_buffer`) and `i < tx_buffer.size`. -/
def dsp_task_write (dsp_buffer : List ℚ) (tx_size : ℕ) : List ℤ :=
  (List.range (min dsp_buffer.length tx_size)).map
    (fun i => dsp_task_quantize (dsp_buffer.getD i 0))

/-- The PCM value the spec prescribes: `round(32767 * clamp(sample, -1.0, 1.0))`. -/
def specPcm (sample : ℚ) : ℤ :=
  roundfAwayFromZero (32767 * max (-1) (min 1 sample))

theorem dspTaskClamp_eq_clamp (s : ℚ) : dspTaskClamp s = max (-1) (min 1 s) := by
  unfold dspTaskClamp
  rcases lt_trichotomy s (-1) with h | h | h
  · rw [if_pos h, min_eq_right (by linarith), max_eq_left (by linarith)]
  · subst h
    norm_num
  · rw [if_neg (by linarith)]
    by_cases h1 : s > 1
    · rw [if_pos h1, min_eq_left (by linarith), max_eq_right (by linarith)]
    · rw [if_neg h1, min_eq_right (by linarith), max_eq_right (by linarith)]

theorem roundfAwayFromZero_le (x : ℚ) (b : ℤ) (h : x ≤ b) :
    roundfAwayFromZero x ≤ b := by
  unfold roundfAwayFromZero
  split
  · by_contra hcon
    push_neg at hcon
    have h1 : b + 1 ≤ ⌊x + 1/2⌋ := by omega
    have h2 : ((b + 1 : ℤ) : ℚ) ≤ x + 1/2 := Int.le_floor.mp h1
    push_cast at h2
    linarith
  · exact Int.ceil_le.mpr (by linarith)

theorem le_roundfAwayFromZero (x : ℚ) (b : ℤ) (h : (b : ℚ) ≤ x) :
    b ≤ roundfAwayFromZero x := by
  unfold roundfAwayFromZero
  split
  · exact Int.le_floor.mpr (by linarith)
  · by_contra hcon
    push_neg at hcon
    have h1 : ⌈x - 1/2⌉ ≤ b - 1 := by omega
    have h2 : x - 1/2 ≤ ((b - 1 : ℤ) : ℚ) := Int.ceil_le.mp h1
    push_cast at h2
    linarith

theorem int16OfInt_eq_self (n : ℤ) (hlo : -(2 ^ 15) ≤ n) (hhi : n < 2 ^ 15) :
    int16OfInt n = n := by
  unfold int16OfInt
  rw [Int.emod_eq_of_lt (by omega) (by omega)]
  omega

/-- C2: every 16-bit PCM value that the `dsp_task` copy loop writes equals
`round(32767 * clamp(dsp_buffer[i], -1.0, 1.0))`, and lies in
[-32767, 32767], even when the float sample lies outside [-1.0, 1.0]. -/
theorem c2_dsp_task_pcm_clamped (dsp_buffer : List ℚ) (tx_size i : ℕ)
    (h : i < (dsp_task_write dsp_buffer tx_size).length) :
    (dsp_task_write dsp_buffer tx_size).get ⟨i, h⟩ = specPcm (dsp_buffer.getD i 0) ∧
    -32767 ≤ (dsp_task_write dsp_buffer tx_size).get ⟨i, h⟩ ∧
    (dsp_task_write dsp_buffer tx_size).get ⟨i, h⟩ ≤ 32767 := by
  have hc : dspTaskClamp (dsp_buffer.getD i 0) = max (-1) (min 1 (dsp_buffer.getD i 0)) :=
    dspTaskClamp_eq_clamp _
  have hlo : (-1 : ℚ) ≤ dspTaskClamp (dsp_buffer.getD i 0) := by
    rw [hc]; exact le_max_left _ _
  have hhi : dspTaskClamp (dsp_buffer.getD i 0) ≤ 1 := by
    rw [hc]
    exact max_le (by norm_num) (min_le_left _ _)
  have hrlo : (-32767 : ℤ) ≤ roundfAwayFromZero (32767 * dspTaskClamp (dsp_buffer.getD i 0)) := by
    apply le_roundfAwayFromZero
    push_cast
    nlinarith
  have hrhi : roundfAwayFromZero (32767 * dspTaskClamp (dsp_buffer.getD i 0)) ≤ 32767 := by
    apply roundfAwayFromZero_le
    push_cast
    nlinarith
  have hget : (dsp_task_write dsp_buffer tx_size).get ⟨i, h⟩ =
      dsp_task_quantize (dsp_buffer.getD i 0) := by
    simp [dsp_task_write]
  have hq : dsp_task_quantize (dsp_buffer.getD i 0) = specPcm (dsp_buffer.getD i 0) := by
    unfold dsp_task_quantize specPcm
    rw [hc]
    exact int16OfInt_eq_self _ (by rw [← hc]; omega) (by rw [← hc]; omega)
  refine ⟨by rw [hget, hq], ?_, ?_⟩
  · rw [hget]
    unfold dsp_task_quantize
    rw [int16OfInt_eq_self _ (by omega) (by omega)]
    exact hrlo
  · rw [hget]
    unfold dsp_task_quantize
    rw [int16OfInt_eq_self _ (by omega) (by omega)]
    exact hrhi

/-- Witness for C2 at a concrete input: the internal sample 3/2 lies outside
[-1, 1] and is written as exactly 32767. -/
theorem c2_dsp_task_pcm_clamped_witness :
    (dsp_task_write [(3 : ℚ)/2] 1).get ⟨0, by decide⟩ = specPcm ((3 : ℚ)/2) ∧
    -32767 ≤ (dsp_task_write [(3 : ℚ)/2] 1).get ⟨0, by decide⟩ ∧
    (dsp_task_write [(3 : ℚ)/2] 1).get ⟨0, by decide⟩ ≤ 32767 :=
  c2_dsp_task_pcm_clamped [(3 : ℚ)/2] 1 0 (by decide)

/-! Section: ADSR envelope generator (src/main/dsp/adsr.h / adsr.c) -/

/-- The enum `dsp_adsr_status_t`. -/
inductive DspAdsrStatus where
  | STOPPED
  | ATTACK
  | DECAY
  | SUSTAIN
  | RELEASE
deriving Repr, DecidableEq

/-- The struct `dsp_adsr_breakpoint_t`. -/
structure AdsrBreakpoint where
  value : ℚ
  duration : ℚ
  increment : ℚ
deriving Repr, DecidableEq

/-- The `envelope` sub-struct of `dsp_adsr_t`. -/
structure AdsrEnvelope where
  attack : AdsrBreakpoint
  decay : AdsrBreakpoint
  release : AdsrBreakpoint
  sustain : ℚ
deriving Repr, DecidableEq

/-- The `state` sub-struct of `dsp_adsr_t`. -/
structure AdsrState where
  status : DspAdsrStatus
  value : ℚ
deriving Repr, DecidableEq

/-- The struct `dsp_adsr_t`. -/
structure Adsr where
  envelope : AdsrEnvelope
  state : AdsrState
deriving Repr, DecidableEq

/-- The zero-initialized envelope generator `dsp_adsr_new` returns
(`calloc` zeroes every field; status 0 is `DSP_ADSR_STOPPED`). -/
def dsp_adsr_new : Adsr :=
  { envelope :=
      { attack := { value := 0, duration := 0, increment := 0 }
        decay := { value := 0, duration := 0, increment := 0 }
        release := { value := 0, duration := 0, increment := 0 }
        sustain := 0 }
    state := { status := DspAdsrStatus.STOPPED, value := 0 } }

/-- Embedding of `dsp_adsr_recalc_increments` (adsr.c lines 39-53).  Each
increment is `delta / nsmpl` with `nsmpl = sample_rate * duration` taken
directly, with no lower clamp.  A zero `nsmpl` makes the C float division
produce a non-finite value; that case is modelled as `none`. -/
def dsp_adsr_recalc_increments (adsr : Adsr) (sample_rate : ℤ) : Option Adsr :=
  let nsmpl_attack : ℚ := (sample_rate : ℚ) * adsr.envelope.attack.duration
  let nsmpl_decay : ℚ := (sample_rate : ℚ) * adsr.envelope.decay.duration
  let nsmpl_release : ℚ := (sample_rate : ℚ) * adsr.envelope.release.duration
  if nsmpl_attack = 0 ∨ nsmpl_decay = 0 ∨ nsmpl_release = 0 then none
  else some
    { adsr with
      envelope.attack.increment :=
        (adsr.envelope.attack.value - adsr.envelope.release.value) / nsmpl_attack
      envelope.decay.increment :=
        (adsr.envelope.decay.value - adsr.envelope.attack.value) / nsmpl_decay
      envelope.release.increment :=
        (adsr.envelope.release.value - adsr.envelope.sustain) / nsmpl_release }

/-- Embedding of `dsp_adsr_set_attack` (adsr.c lines 58-63). -/
def dsp_adsr_set_attack (adsr : Adsr) (sample_rate : ℤ) (duration : ℚ) : Option Adsr :=
  dsp_adsr_recalc_increments
    { adsr with envelope.attack.value := 1, envelope.attack.duration := duration }
    sample_rate

/-- Embedding of `dsp_adsr_set_decay` (adsr.c lines 68-73). -/
def dsp_adsr_set_decay (adsr : Adsr) (sample_rate : ℤ) (duration : ℚ) : Option Adsr :=
  dsp_adsr_recalc_increments
    { adsr with envelope.decay.value := adsr.envelope.sustain,
                envelope.decay.duration := duration }
    sample_rate

/-- Embedding of `dsp_adsr_set_sustain` (adsr.c lines 78-82). -/
def dsp_adsr_set_sustain (adsr : Adsr) (sample_rate : ℤ) (level : ℚ) : Option Adsr :=
  dsp_adsr_recalc_increments { adsr with envelope.sustain := level } sample_rate

/-- Embedding of `dsp_adsr_set_release` (adsr.c lines 88-93). -/
def dsp_adsr_set_release (adsr : Adsr) (sample_rate : ℤ) (duration : ℚ) : Option Adsr :=
  dsp_adsr_recalc_increments
    { adsr with envelope.release.value := 0, envelope.release.duration := duration }
    sample_rate

/-- C3 counterexample: on a freshly created envelope generator, setting an
attack time of 0 at sample rate 44100 makes `dsp_adsr_recalc_increments`
divide by `nsmpl = 44100 * 0 = 0` — the division by zero that the claim says
can never happen.  There is no `max(duration * sample_rate, min_samples)`
lower clamp anywhere in adsr.c. -/
theorem c3_zero_attack_divides_by_zero :
    dsp_adsr_set_attack dsp_adsr_new 44100 0 = none := by
  simp [dsp_adsr_set_attack, dsp_adsr_recalc_increments, dsp_adsr_new]

/-- C3 amended: every parameter setter (attack, decay, sustain and release)
recomputes all three breakpoint increments as
`(target - origin) / (duration * sample_rate)` with the denominator taken
directly — there is no minimum-samples clamp, and the result is only defined
when all three segment denominators are nonzero.  The hypotheses cover the
three stored segment durations plus the newly set duration `d`; `level` is
the sustain level passed to `dsp_adsr_set_sustain`. -/
theorem c3_setter_increments (adsr : Adsr) (sample_rate : ℤ) (d level : ℚ)
    (ha : (sample_rate : ℚ) * adsr.envelope.attack.duration ≠ 0)
    (hd : (sample_rate : ℚ) * adsr.envelope.decay.duration ≠ 0)
    (hr : (sample_rate : ℚ) * adsr.envelope.release.duration ≠ 0)
    (hx : (sample_rate : ℚ) * d ≠ 0) :
    (∃ a', dsp_adsr_set_attack adsr sample_rate d = some a' ∧
      a'.envelope.attack.increment =
        (1 - adsr.envelope.release.value) / ((sample_rate : ℚ) * d) ∧
      a'.envelope.decay.increment =
        (adsr.envelope.decay.value - 1) /
          ((sample_rate : ℚ) * adsr.envelope.decay.duration) ∧
      a'.envelope.release.increment =
        (adsr.envelope.release.value - adsr.envelope.sustain) /
          ((sample_rate : ℚ) * adsr.envelope.release.duration) ∧
      a'.envelope.attack.value = 1 ∧
      a'.envelope.attack.duration = d ∧
      a'.envelope.sustain = adsr.envelope.sustain ∧
      a'.state = adsr.state) ∧
    (∃ a', dsp_adsr_set_decay adsr sample_rate d = some a' ∧
      a'.envelope.attack.increment =
        (adsr.envelope.attack.value - adsr.envelope.release.value) /
          ((sample_rate : ℚ) * adsr.envelope.attack.duration) ∧
      a'.envelope.decay.increment =
        (adsr.envelope.sustain - adsr.envelope.attack.value) /
          ((sample_rate : ℚ) * d) ∧
      a'.envelope.release.increment =
        (adsr.envelope.release.value - adsr.envelope.sustain) /
          ((sample_rate : ℚ) * adsr.envelope.release.duration) ∧
      a'.envelope.decay.value = adsr.envelope.sustain ∧
      a'.envelope.decay.duration = d ∧
      a'.envelope.sustain = adsr.envelope.sustain ∧
      a'.state = adsr.state) ∧
    (∃ a', dsp_adsr_set_sustain adsr sample_rate level = some a' ∧
      a'.envelope.attack.increment =
        (adsr.envelope.attack.value - adsr.envelope.release.value) /
          ((sample_rate : ℚ) * adsr.envelope.attack.duration) ∧
      a'.envelope.decay.increment =
        (adsr.envelope.decay.value - adsr.envelope.attack.value) /
          ((sample_rate : ℚ) * adsr.envelope.decay.duration) ∧
      a'.envelope.release.increment =
        (adsr.envelope.release.value - level) /
          ((sample_rate : ℚ) * adsr.envelope.release.duration) ∧
      a'.envelope.sustain = level ∧
      a'.state = adsr.state) ∧
    (∃ a', dsp_adsr_set_release adsr sample_rate d = some a' ∧
      a'.envelope.attack.increment =
        (adsr.envelope.attack.value - 0) /
          ((sample_rate : ℚ) * adsr.envelope.attack.duration) ∧
      a'.envelope.decay.increment =
        (adsr.envelope.decay.value - adsr.envelope.attack.value) /
          ((sample_rate : ℚ) * adsr.envelope.decay.duration) ∧
      a'.envelope.release.increment =
        (0 - adsr.envelope.sustain) / ((sample_rate : ℚ) * d) ∧
      a'.envelope.release.value = 0 ∧
      a'.envelope.release.duration = d ∧
      a'.envelope.sustain = adsr.envelope.sustain ∧
      a'.state = adsr.state) := by
  refine ⟨?_, ?_, ?_, ?_⟩
  · unfold dsp_adsr_set_attack dsp_adsr_recalc_increments
    rw [if_neg]
    · exact ⟨_, rfl, rfl, rfl, rfl, rfl, rfl, rfl, rfl⟩
    · push_neg
      exact ⟨hx, hd, hr⟩
  · unfold dsp_adsr_set_decay dsp_adsr_recalc_increments
    rw [if_neg]
    · exact ⟨_, rfl, rfl, rfl, rfl, rfl, rfl, rfl, rfl⟩
    · push_neg
      exact ⟨ha, hx, hr⟩
  · unfold dsp_adsr_set_sustain dsp_adsr_recalc_increments
    rw [if_neg]
    · exact ⟨_, rfl, rfl, rfl, rfl, rfl, rfl⟩
    · push_neg
      exact ⟨ha, hd, hr⟩
  · unfold dsp_adsr_set_release dsp_adsr_recalc_increments
    rw [if_neg]
    · exact ⟨_, rfl, rfl, rfl, rfl, rfl, rfl, rfl, rfl⟩
    · push_neg
      exact ⟨ha, hd, hx⟩

/-- A concrete envelope generator carrying the `env1` values from main.c
(attack 0.1 s, decay 0.3 s, sustain 0.5, release 0.5 s), used to witness C3. -/
def adsrEnv1Example : Adsr :=
  { envelope :=
      { attack := { value := 1, duration := 1/10, increment := 0 }
        decay := { value := 1/2, duration := 3/10, increment := 0 }
        release := { value := 0, duration := 1/2, increment := 0 }
        sustain := 1/2 }
    state := { status := DspAdsrStatus.STOPPED, value := 0 } }

/-- Witness for the amended C3 at a concrete input: all four setters,
applied to the main.c carrier envelope values with a new duration of 0.1 s
and a new sustain level of 0.7. -/
theorem c3_setter_increments_witness :
    (∃ a', dsp_adsr_set_attack adsrEnv1Example 44100 (1/10) = some a' ∧
      a'.envelope.attack.increment =
        (1 - adsrEnv1Example.envelope.release.value) / ((44100 : ℚ) * (1/10)) ∧
      a'.envelope.decay.increment =
        (adsrEnv1Example.envelope.decay.value - 1) /
          ((44100 : ℚ) * adsrEnv1Example.envelope.decay.duration) ∧
      a'.envelope.release.increment =
        (adsrEnv1Example.envelope.release.value - adsrEnv1Example.envelope.sustain) /
          ((44100 : ℚ) * adsrEnv1Example.envelope.release.duration) ∧
      a'.envelope.attack.value = 1 ∧
      a'.envelope.attack.duration = 1/10 ∧
      a'.envelope.sustain = adsrEnv1Example.envelope.sustain ∧
      a'.state = adsrEnv1Example.state) ∧
    (∃ a', dsp_adsr_set_decay adsrEnv1Example 44100 (1/10) = some a' ∧
      a'.envelope.attack.increment =
        (adsrEnv1Example.envelope.attack.value - adsrEnv1Example.envelope.release.value) /
          ((44100 : ℚ) * adsrEnv1Example.envelope.attack.duration) ∧
      a'.envelope.decay.increment =
        (adsrEnv1Example.envelope.sustain - adsrEnv1Example.envelope.attack.value) /
          ((44100 : ℚ) * (1/10)) ∧
      a'.envelope.release.increment =
        (adsrEnv1Example.envelope.release.value - adsrEnv1Example.envelope.sustain) /
          ((44100 : ℚ) * adsrEnv1Example.envelope.release.duration) ∧
      a'.envelope.decay.value = adsrEnv1Example.envelope.sustain ∧
      a'.envelope.decay.duration = 1/10 ∧
      a'.envelope.sustain = adsrEnv1Example.envelope.sustain ∧
      a'.state = adsrEnv1Example.state) ∧
    (∃ a', dsp_adsr_set_sustain adsrEnv1Example 44100 (7/10) = some a' ∧
      a'.envelope.attack.increment =
        (adsrEnv1Example.envelope.attack.value - adsrEnv1Example.envelope.release.value) /
          ((44100 : ℚ) * adsrEnv1Example.envelope.attack.duration) ∧
      a'.envelope.decay.increment =
        (adsrEnv1Example.envelope.decay.value - adsrEnv1Example.envelope.attack.value) /
          ((44100 : ℚ) * adsrEnv1Example.envelope.decay.duration) ∧
      a'.envelope.release.increment =
        (adsrEnv1Example.envelope.release.value - 7/10) /
          ((44100 : ℚ) * adsrEnv1Example.envelope.release.duration) ∧
      a'.envelope.sustain = 7/10 ∧
      a'.state = adsrEnv1Example.state) ∧
    (∃ a', dsp_adsr_set_release adsrEnv1Example 44100 (1/10) = some a' ∧
      a'.envelope.attack.increment =
        (adsrEnv1Example.envelope.attack.value - 0) /
          ((44100 : ℚ) * adsrEnv1Example.envelope.attack.duration) ∧
      a'.envelope.decay.increment =
        (adsrEnv1Example.envelope.decay.value - adsrEnv1Example.envelope.attack.value) /
          ((44100 : ℚ) * adsrEnv1Example.envelope.decay.duration) ∧
      a'.envelope.release.increment =
        (0 - adsrEnv1Example.envelope.sustain) / ((44100 : ℚ) * (1/10)) ∧
      a'.envelope.release.value = 0 ∧
      a'.envelope.release.duration = 1/10 ∧
      a'.envelope.sustain = adsrEnv1Example.envelope.sustain ∧
      a'.state = adsrEnv1Example.state) :=
  c3_setter_increments adsrEnv1Example 44100 (1/10) (7/10)
    (by norm_num [adsrEnv1Example]) (by norm_num [adsrEnv1Example])
    (by norm_num [adsrEnv1Example]) (by norm_num)

/-! Section: Oscillator (src/main/dsp/oscil.h / oscil.c)

The wrap at the end of `dsp_oscil_tick` is a pair of `while` loops:
`while (index >= length) index -= length;` then
`while (index < 0) index += length;`.  Each loop is embedded as a
well-founded recursion (it terminates exactly when `length > 0`, which the
callers guarantee; for `length = 0` the C loop would never terminate and the
Lean function returns its argument unchanged). -/

set_option linter.unusedVariables false in
/-- The first wrap loop of `dsp_oscil_tick`: repeatedly subtract `L` while the
index is `≥ L`. -/
def wrapDown (L x : ℚ) : ℚ :=
  if h : 0 < L ∧ L ≤ x then wrapDown L (x - L) else x
termination_by (⌊x / L⌋).toNat
decreasing_by
  have hL : 0 < L := h.1
  have hdiv : (x - L) / L = x / L - 1 := by
    field_simp
  have h1 : (1 : ℤ) ≤ ⌊x / L⌋ := by
    rw [Int.le_floor]
    push_cast
    rw [le_div_iff₀ hL]
    linarith [h.2]
  rw [hdiv]
  rw [show x / L - 1 = x / L - (1 : ℤ) by push_cast; ring]
  rw [Int.floor_sub_int]
  omega

set_option linter.unusedVariables false in
/-- The second wrap loop of `dsp_oscil_tick`: repeatedly add `L` while the
index is negative. -/
def wrapUp (L x : ℚ) : ℚ :=
  if h : 0 < L ∧ x < 0 then wrapUp L (x + L) else x
termination_by (⌈-x / L⌉).toNat
decreasing_by
  have hL : 0 < L := h.1
  have hdiv : -(x + L) / L = -x / L - 1 := by
    field_simp
    ring
  have h1 : (1 : ℤ) ≤ ⌈-x / L⌉ := by
    rw [Int.le_ceil_iff]
    push_cast
    rw [lt_div_iff₀ hL]
    linarith [h.2]
  rw [hdiv]
  rw [show -x / L - 1 = -x / L - (1 : ℤ) by push_cast; ring]
  rw [Int.ceil_sub_int]
  omega

theorem wrapDown_lt (L x : ℚ) (hL : 0 < L) : wrapDown L x < L := by
  refine wrapDown.induct L (fun y => wrapDown L y < L) ?_ ?_ x
  · intro y h ih
    rw [wrapDown, dif_pos h]
    exact ih
  · intro y h
    rw [wrapDown, dif_neg h]
    push_neg at h
    exact h hL

theorem wrapUp_nonneg (L x : ℚ) (hL : 0 < L) : 0 ≤ wrapUp L x := by
  refine wrapUp.induct L (fun y => 0 ≤ wrapUp L y) ?_ ?_ x
  · intro y h ih
    rw [wrapUp, dif_pos h]
    exact ih
  · intro y h
    rw [wrapUp, dif_neg h]
    push_neg at h
    exact h hL

set_option linter.unusedVariables false in
theorem wrapUp_lt (L x : ℚ) (hL : 0 < L) : x < L → wrapUp L x < L := by
  refine wrapUp.induct L (fun y => y < L → wrapUp L y < L) ?_ ?_ x
  · intro y h ih _
    rw [wrapUp, dif_pos h]
    exact ih (by linarith [h.2])
  · intro y h hy
    rw [wrapUp, dif_neg h]
    exact hy

/-- The struct `dsp_oscil_t`. -/
structure Oscil where
  wavetable : Wavetable
  frequency : ℚ
  increment : ℚ
  index : ℚ
deriving Repr, DecidableEq

/-- Embedding of `dsp_oscil_new` (oscil.c lines 18-22): zero-initialized
except for the wavetable reference. -/
def dsp_oscil_new (wavetable : Wavetable) : Oscil :=
  { wavetable := wavetable, frequency := 0, increment := 0, index := 0 }

/-- Embedding of `dsp_oscil_reinit` (oscil.c lines 27-31):
`increment = frequency * length / sample_rate`, optional index reset. -/
def dsp_oscil_reinit (oscil : Oscil) (sample_rate : ℤ) (frequency : ℚ)
    (reset_index : Bool) : Oscil :=
  let oscil' := { oscil with
    frequency := frequency
    increment := frequency * (oscil.wavetable.length : ℚ) / (sample_rate : ℚ) }
  if reset_index then { oscil' with index := 0 } else oscil'

/-- Embedding of `dsp_oscil_tick` (oscil.h lines 58-74), the linear-FM
variant compiled into the firmware: read the table at the current index,
advance by `increment + modulator * length * 0.01f`, then wrap back into
`[0, length)` by the two `while` loops. -/
def dsp_oscil_tick (oscil : Oscil) (modulator : ℚ) : Oscil × ℚ :=
  let sample := dsp_wavetable_read2 oscil.wavetable.samples oscil.index
  let L : ℚ := (oscil.wavetable.length : ℚ)
  let advanced := oscil.index + oscil.increment + modulator * L * 0.01
  ({ oscil with index := wrapUp L (wrapDown L advanced) }, sample)

set_option linter.unusedVariables false in
/-- C4: if the wavetable length is positive and the phase index lies in
`[0, length)` before `dsp_oscil_tick`, it lies in `[0, length)` again after
the call, for every increment and modulator sample. -/
theorem c4_oscil_tick_index_invariant (oscil : Oscil) (modulator : ℚ)
    (hL : 0 < oscil.wavetable.length)
    (h0 : 0 ≤ oscil.index) (h1 : oscil.index < (oscil.wavetable.length : ℚ)) :
    0 ≤ (dsp_oscil_tick oscil modulator).1.index ∧
    (dsp_oscil_tick oscil modulator).1.index < (oscil.wavetable.length : ℚ) := by
  have hLq : (0 : ℚ) < (oscil.wavetable.length : ℚ) := by
    exact_mod_cast hL
  constructor
  · exact wrapUp_nonneg _ _ hLq
  · exact wrapUp_lt _ _ hLq (wrapDown_lt _ _ hLq)

/-- A concrete length-4 wavetable with one guard point, used by the
witnesses below. -/
def wavetableExample : Wavetable :=
  { length := 4, samples := [1, 0, -1, 0, 1] }

/-- A concrete oscillator over `wavetableExample`, used to witness C4. -/
def oscilExample : Oscil :=
  { wavetable := wavetableExample
    frequency := 55
    increment := 3/2
    index := 1/2 }

/-- Witness for C4 at a concrete input (a negative modulator drives the raw
index below zero before the wrap). -/
theorem c4_oscil_tick_index_invariant_witness :
    0 ≤ (dsp_oscil_tick oscilExample (-60)).1.index ∧
    (dsp_oscil_tick oscilExample (-60)).1.index < (oscilExample.wavetable.length : ℚ) :=
  c4_oscil_tick_index_invariant oscilExample (-60)
    (by norm_num [oscilExample, wavetableExample])
    (by norm_num [oscilExample]) (by norm_num [oscilExample, wavetableExample])

/-! Section: ADSR triggers (src/main/dsp/adsr.c lines 98-107) -/

/-- Embedding of `dsp_adsr_trigger_attack`: unconditionally set the status. -/
def dsp_adsr_trigger_attack (adsr : Adsr) : Adsr :=
  { adsr with state.status := DspAdsrStatus.ATTACK }

/-- Embedding of `dsp_adsr_trigger_release` (adsr.c lines 105-107):
unconditionally set the status, touching nothing else. -/
def dsp_adsr_trigger_release (adsr : Adsr) : Adsr :=
  { adsr with state.status := DspAdsrStatus.RELEASE }

/-- Embedding of `dsp_adsr_tick` (adsr.h lines 135-172): return the current
value, then advance it by the increment of the active segment, switching
segment at the breakpoint and clamping to the breakpoint value. -/
def dsp_adsr_tick (adsr : Adsr) : Adsr × ℚ :=
  let value := adsr.state.value
  let adsr' :=
    match adsr.state.status with
    | DspAdsrStatus.ATTACK =>
      let v := adsr.state.value + adsr.envelope.attack.increment
      if v ≥ adsr.envelope.attack.value then
        { adsr with state := { status := DspAdsrStatus.DECAY, value := adsr.envelope.attack.value } }
      else { adsr with state.value := v }
    | DspAdsrStatus.DECAY =>
      let v := adsr.state.value + adsr.envelope.decay.increment
      if v ≤ adsr.envelope.decay.value then
        { adsr with state := { status := DspAdsrStatus.SUSTAIN, value := adsr.envelope.decay.value } }
      else { adsr with state.value := v }
    | DspAdsrStatus.RELEASE =>
      let v := adsr.state.value + adsr.envelope.release.increment
      if v ≤ 0 then
        { adsr with state := { status := DspAdsrStatus.STOPPED, value := 0 } }
      else { adsr with state.value := v }
    | _ => adsr
  (adsr', value)

/-! Section: Synthesizer data model (src/main/synth.h) -/

/-- The struct `synth_voice_t`. -/
structure Voice where
  active : Bool
  note : ℤ
  velocity : ℚ
  direction : ℚ
  osc1 : Oscil
  env1 : Adsr
  lfo1 : Oscil
  osc2 : Oscil
  env2 : Adsr
  fm_index_2_1 : ℚ
  fm_ratio_2_1 : ℚ
deriving Repr, DecidableEq

/-- The struct `dsp_adsr_values_t`. -/
structure AdsrValues where
  attack : ℚ
  decay : ℚ
  sustain : ℚ
  release : ℚ
deriving Repr, DecidableEq

/-- The struct `synth_fm_params` (`n_ratios` is the length of `ratios`). -/
structure SynthFmParams where
  ratios : List ℚ
  index_min : ℚ
  index_max : ℚ
deriving Repr, DecidableEq

/-- The `params` sub-struct of `synth_t`. -/
structure SynthParams where
  volume : ℚ
  env1 : AdsrValues
  env2 : AdsrValues
  fm : SynthFmParams
deriving Repr, DecidableEq

/-- The `state` sub-struct of `synth_t` (`polyphony` is the length of
`voices`). -/
structure SynthState where
  gain_staging : ℚ
  voices : List Voice
deriving Repr, DecidableEq

/-- The struct `synth_t`. -/
structure Synth where
  params : SynthParams
  state : SynthState
deriving Repr, DecidableEq

/-- Embedding of `synth_set_volume` (synth.c lines 86-90). -/
def synth_set_volume (synth : Synth) (volume : ℚ) : Synth :=
  { synth with params.volume := volume }

/-- The constant `FLT_MAX` from float.h, `(2 - 2^-23) * 2^127`, used as the
initial value of `steal_amp` in `synth_note_on`. -/
def FLT_MAX : ℚ := (2 ^ 24 - 1) * 2 ^ 104

/-! Section: Voice allocation in `synth_note_on` (src/main/synth.c lines 120-161) -/

/-- The four loop-carried variables of the allocation scan of
`synth_note_on`: `retrigger`, `free_voice`, `steal_voice` (voice pointers,
modelled as indices) and `steal_amp`. -/
structure NoteOnScanAcc where
  retrigger : Option ℕ
  free_voice : Option ℕ
  steal_voice : Option ℕ
  steal_amp : ℚ
deriving Repr, DecidableEq

/-- One iteration of the allocation loop (synth.c lines 127-141) on voice `i`. -/
def noteOnScanStep (note : ℤ) (i : ℕ) (voice : Voice) (acc : NoteOnScanAcc) :
    NoteOnScanAcc :=
  let amp := voice.velocity * voice.env1.state.value
  let acc1 := if voice.note = note then { acc with retrigger := some i } else acc
  if voice.active = false then { acc1 with free_voice := some i }
  else if amp < acc1.steal_amp then { acc1 with steal_voice := some i, steal_amp := amp }
  else acc1

/-- The allocation loop of `synth_note_on`, scanning voices left to right. -/
def noteOnScanAux (note : ℤ) : ℕ → NoteOnScanAcc → List Voice → NoteOnScanAcc
  | _, acc, [] => acc
  | i, acc, voice :: rest =>
    noteOnScanAux note (i + 1) (noteOnScanStep note i voice acc) rest

/-- The voice `synth_note_on` picks (synth.c line 143):
`retrigger ? retrigger : free_voice ? free_voice : steal_voice`. -/
def synth_note_on_select (voices : List Voice) (note : ℤ) : Option ℕ :=
  let acc := noteOnScanAux note 0 ⟨none, none, none, FLT_MAX⟩ voices
  if acc.retrigger.isSome then acc.retrigger
  else if acc.free_voice.isSome then acc.free_voice
  else acc.steal_voice

/-- Embedding of `synth_note_on` (synth.c lines 120-161).  The two `rand()`
results and the `mtof` pitch map are parameters; `dsp_oscil_reinit` takes the
sample rate as in its definition in oscil.c.  When the scan selects no voice
the C code would dereference a null pointer; that unreachable case leaves the
state unchanged here. -/
def synth_note_on (synth : Synth) (note : ℤ) (velocity : ℚ) (sample_rate : ℤ)
    (mtof : ℤ → ℚ) (rand1 rand2 : ℕ) : Synth :=
  match synth_note_on_select synth.state.voices note with
  | none => synth
  | some j =>
    match synth.state.voices[j]? with
    | none => synth
    | some voice =>
      let fm_ratio := synth.params.fm.ratios.getD (rand1 % synth.params.fm.ratios.length) 0
      let fm_index := ((rand2 % 256 : ℕ) : ℚ) / 255 *
        (synth.params.fm.index_max - synth.params.fm.index_min) + synth.params.fm.index_min
      let freq1 := mtof note
      let freq2 := freq1 * fm_ratio
      let voice' := { voice with
        note := note
        velocity := velocity
        fm_ratio_2_1 := fm_ratio
        fm_index_2_1 := fm_index
        osc1 := dsp_oscil_reinit voice.osc1 sample_rate freq1 false
        osc2 := dsp_oscil_reinit voice.osc2 sample_rate freq2 false
        env1 := dsp_adsr_trigger_attack voice.env1
        env2 := dsp_adsr_trigger_attack voice.env2 }
      { synth with state.voices := synth.state.voices.set j voice' }

/-- Embedding of `synth_note_off` (synth.c lines 168-176): trigger the release
of the carrier envelope of every active voice holding the note. -/
def synth_note_off (synth : Synth) (note : ℤ) : Synth :=
  { synth with state.voices := synth.state.voices.map (fun voice =>
      if voice.note = note ∧ voice.active = true then
        { voice with env1 := dsp_adsr_trigger_release voice.env1 }
      else voice) }

/-! Section: Characterizing the allocation scan -/

/-- Index of the last voice in the list whose stored note equals `note`
(the value `retrigger` holds after the scan, relative to the list start). -/
def lastMatch (note : ℤ) : List Voice → Option ℕ
  | [] => none
  | voice :: rest =>
    match lastMatch note rest with
    | some p => some (p + 1)
    | none => if voice.note = note then some 0 else none

/-- Index of the last inactive voice in the list (the value `free_voice`
holds after the scan, relative to the list start). -/
def lastInactive : List Voice → Option ℕ
  | [] => none
  | voice :: rest =>
    match lastInactive rest with
    | some p => some (p + 1)
    | none => if voice.active = false then some 0 else none

theorem noteOnScanStep_retrigger (note : ℤ) (i : ℕ) (voice : Voice)
    (acc : NoteOnScanAcc) :
    (noteOnScanStep note i voice acc).retrigger =
      if voice.note = note then some i else acc.retrigger := by
  simp only [noteOnScanStep]
  split_ifs <;> rfl

theorem noteOnScanStep_free (note : ℤ) (i : ℕ) (voice : Voice)
    (acc : NoteOnScanAcc) :
    (noteOnScanStep note i voice acc).free_voice =
      if voice.active = false then some i else acc.free_voice := by
  simp only [noteOnScanStep]
  split_ifs <;> rfl

theorem noteOnScanAux_retrigger (note : ℤ) (l : List Voice) :
    ∀ (i : ℕ) (acc : NoteOnScanAcc),
    (noteOnScanAux note i acc l).retrigger =
      (lastMatch note l).elim acc.retrigger (fun p => some (i + p)) := by
  induction l with
  | nil => intro i acc; rfl
  | cons voice rest ih =>
    intro i acc
    show (noteOnScanAux note (i + 1) (noteOnScanStep note i voice acc) rest).retrigger = _
    rw [ih]
    simp only [lastMatch]
    cases hrest : lastMatch note rest with
    | some p =>
      simp only [Option.elim]
      congr 1
      omega
    | none =>
      simp only [Option.elim, noteOnScanStep_retrigger]
      split_ifs with h
      · simp [Option.elim]
      · simp [Option.elim]

theorem noteOnScanAux_free (note : ℤ) (l : List Voice) :
    ∀ (i : ℕ) (acc : NoteOnScanAcc),
    (noteOnScanAux note i acc l).free_voice =
      (lastInactive l).elim acc.free_voice (fun p => some (i + p)) := by
  induction l with
  | nil => intro i acc; rfl
  | cons voice rest ih =>
    intro i acc
    show (noteOnScanAux note (i + 1) (noteOnScanStep note i voice acc) rest).free_voice = _
    rw [ih]
    simp only [lastInactive]
    cases hrest : lastInactive rest with
    | some p =>
      simp only [Option.elim]
      congr 1
      omega
    | none =>
      simp only [Option.elim, noteOnScanStep_free]
      split_ifs with h
      · simp [Option.elim]
      · simp [Option.elim]

theorem lastMatch_some (note : ℤ) (l : List Voice) (p : ℕ)
    (h : lastMatch note l = some p) :
    ∃ v, l[p]? = some v ∧ v.note = note := by
  induction l generalizing p with
  | nil => simp [lastMatch] at h
  | cons voice rest ih =>
    unfold lastMatch at h
    cases hrest : lastMatch note rest with
    | some q =>
      rw [hrest] at h
      obtain ⟨v, hv, hn⟩ := ih q hrest
      cases h
      exact ⟨v, by simpa using hv, hn⟩
    | none =>
      rw [hrest] at h
      split_ifs at h with hn
      cases h
      exact ⟨voice, by simp, hn⟩

theorem lastMatch_isSome (note : ℤ) (l : List Voice)
    (h : ∃ v ∈ l, v.note = note) : (lastMatch note l).isSome := by
  induction l with
  | nil => simp at h
  | cons voice rest ih =>
    unfold lastMatch
    cases hrest : lastMatch note rest with
    | some q => simp
    | none =>
      rcases h with ⟨v, hv, hn⟩
      rcases List.mem_cons.mp hv with h1 | h1
      · subst h1
        simp [hn]
      · have := ih ⟨v, h1, hn⟩
        rw [hrest] at this
        simp at this

theorem lastMatch_none_of_no_match (note : ℤ) (l : List Voice)
    (h : ∀ v ∈ l, v.note ≠ note) : lastMatch note l = none := by
  induction l with
  | nil => rfl
  | cons voice rest ih =>
    unfold lastMatch
    rw [ih (fun v hv => h v (List.mem_cons_of_mem _ hv))]
    simp [h voice (List.mem_cons_self _ _)]

theorem lastInactive_isSome (l : List Voice)
    (h : ∃ v ∈ l, v.active = false) : (lastInactive l).isSome := by
  induction l with
  | nil => simp at h
  | cons voice rest ih =>
    unfold lastInactive
    cases hrest : lastInactive rest with
    | some q => simp
    | none =>
      rcases h with ⟨v, hv, ha⟩
      rcases List.mem_cons.mp hv with h1 | h1
      · subst h1
        simp [ha]
      · have := ih ⟨v, h1, ha⟩
        rw [hrest] at this
        simp at this

theorem lastInactive_some (l : List Voice) (p : ℕ)
    (h : lastInactive l = some p) :
    ∃ v, l[p]? = some v ∧ v.active = false ∧
      ∀ q w, p < q → l[q]? = some w → w.active = true := by
  induction l generalizing p with
  | nil => simp [lastInactive] at h
  | cons voice rest ih =>
    unfold lastInactive at h
    cases hrest : lastInactive rest with
    | some q =>
      rw [hrest] at h
      obtain ⟨v, hv, ha, htail⟩ := ih q hrest
      cases h
      refine ⟨v, by simpa using hv, ha, ?_⟩
      intro r w hr hw
      cases r with
      | zero => omega
      | succ r => exact htail r w (by omega) (by simpa using hw)
    | none =>
      rw [hrest] at h
      split_ifs at h with ha
      cases h
      refine ⟨voice, by simp, ha, ?_⟩
      intro r w hr hw
      cases r with
      | zero => omega
      | succ r =>
        simp only [List.getElem?_cons_succ] at hw
        by_contra hcon
        have hsome : (lastInactive rest).isSome := by
          refine lastInactive_isSome rest ⟨w, List.getElem?_mem hw, ?_⟩
          cases hwa : w.active
          · rfl
          · exact absurd hwa hcon
        rw [hrest] at hsome
        simp at hsome

/-- C5: whenever some voice of the pool stores the requested note (active or
not), `synth_note_on` selects a voice whose stored note equals that note, and
a full `synth_note_on` call leaves every other voice untouched — a repeated
note-on for a sounding pitch reuses its voice instead of consuming a second
one. -/
theorem c5_note_on_retrigger_reuses_voice (synth : Synth) (n : ℤ)
    (h : ∃ v ∈ synth.state.voices, v.note = n) :
    ∃ j v, synth_note_on_select synth.state.voices n = some j ∧
      synth.state.voices[j]? = some v ∧ v.note = n ∧
      ∀ (velocity : ℚ) (sample_rate : ℤ) (mtof : ℤ → ℚ) (rand1 rand2 k : ℕ),
        k ≠ j →
        (synth_note_on synth n velocity sample_rate mtof rand1 rand2).state.voices[k]? =
          synth.state.voices[k]? := by
  obtain ⟨p, hp⟩ := Option.isSome_iff_exists.mp (lastMatch_isSome n synth.state.voices h)
  obtain ⟨v, hv, hn⟩ := lastMatch_some n _ p hp
  have hsel : synth_note_on_select synth.state.voices n = some p := by
    unfold synth_note_on_select
    simp [noteOnScanAux_retrigger, hp, Option.elim]
  refine ⟨p, v, hsel, hv, hn, ?_⟩
  intro velocity sample_rate mtof rand1 rand2 k hk
  unfold synth_note_on
  simp only [hsel, hv]
  simpa using List.getElem?_set_ne (Ne.symm hk)

/-- A voice fixture: stored note and activity flag as given, everything else
freshly initialized. -/
def voiceExample (note : ℤ) (active : Bool) : Voice :=
  { active := active
    note := note
    velocity := 1
    direction := 0
    osc1 := dsp_oscil_new wavetableExample
    env1 := dsp_adsr_new
    lfo1 := dsp_oscil_new wavetableExample
    osc2 := dsp_oscil_new wavetableExample
    env2 := dsp_adsr_new
    fm_index_2_1 := 0
    fm_ratio_2_1 := 1 }

/-- A three-voice synthesizer fixture whose first voice holds note 60. -/
def synthC5 : Synth :=
  { params :=
      { volume := 1
        env1 := { attack := 1/10, decay := 3/10, sustain := 1/2, release := 1/2 }
        env2 := { attack := 1/2, decay := 0, sustain := 1, release := 1/5 }
        fm := { ratios := [1], index_min := 1/4, index_max := 3/4 } }
    state :=
      { gain_staging := 1/3
        voices := [voiceExample 60 true, voiceExample 64 true, voiceExample 67 false] } }

/-- Witness for C5 at a concrete input: note 60 is already held by voice 0. -/
theorem c5_note_on_retrigger_reuses_voice_witness :
    ∃ j v, synth_note_on_select synthC5.state.voices 60 = some j ∧
      synthC5.state.voices[j]? = some v ∧ v.note = 60 ∧
      ∀ (velocity : ℚ) (sample_rate : ℤ) (mtof : ℤ → ℚ) (rand1 rand2 k : ℕ),
        k ≠ j →
        (synth_note_on synthC5 60 velocity sample_rate mtof rand1 rand2).state.voices[k]? =
          synthC5.state.voices[k]? :=
  c5_note_on_retrigger_reuses_voice synthC5 60
    ⟨voiceExample 60 true, by simp [synthC5], rfl⟩

/-- C6: when no voice stores the requested note and at least one voice is
inactive, `synth_note_on` selects the last inactive voice of the left-to-right
scan — the highest-index inactive voice, every voice after it being active. -/
theorem c6_note_on_picks_last_inactive_voice (voices : List Voice) (n : ℤ)
    (hno : ∀ v ∈ voices, v.note ≠ n)
    (hfree : ∃ v ∈ voices, v.active = false) :
    ∃ j v, synth_note_on_select voices n = some j ∧
      voices[j]? = some v ∧ v.active = false ∧
      ∀ k w, j < k → voices[k]? = some w → w.active = true := by
  have hm : lastMatch n voices = none := lastMatch_none_of_no_match n voices hno
  obtain ⟨p, hp⟩ := Option.isSome_iff_exists.mp (lastInactive_isSome voices hfree)
  obtain ⟨v, hv, ha, htail⟩ := lastInactive_some voices p hp
  have hsel : synth_note_on_select voices n = some p := by
    unfold synth_note_on_select
    simp [noteOnScanAux_retrigger, noteOnScanAux_free, hm, hp, Option.elim]
  exact ⟨p, v, hsel, hv, ha, htail⟩

/-- A voice list with no voice holding note 72 and two inactive voices (at
indices 0 and 2), used to witness C6. -/
def voicesC6 : List Voice :=
  [voiceExample 60 false, voiceExample 64 true, voiceExample 67 false, voiceExample 69 true]

/-- Witness for C6 at a concrete input: the scan must pick index 2, the last
inactive voice, not index 0. -/
theorem c6_note_on_picks_last_inactive_voice_witness :
    ∃ j v, synth_note_on_select voicesC6 72 = some j ∧
      voicesC6[j]? = some v ∧ v.active = false ∧
      ∀ k w, j < k → voicesC6[k]? = some w → w.active = true :=
  c6_note_on_picks_last_inactive_voice voicesC6 72 (by decide)
    ⟨voiceExample 60 false, by simp [voicesC6], rfl⟩

/-- C7: `synth_note_off` triggers the release of the carrier envelope (env1)
of every active voice storing the note — possibly several at once — and
changes nothing else: non-matching or inactive voices are untouched, and on a
released voice only the env1 status changes (its envelope data and current
value, the modulator envelope, the oscillators and all scalar fields stay). -/
theorem c7_note_off_releases_all_matching_active (synth : Synth) (n : ℤ) :
    (synth_note_off synth n).params = synth.params ∧
    (synth_note_off synth n).state.gain_staging = synth.state.gain_staging ∧
    (synth_note_off synth n).state.voices.length = synth.state.voices.length ∧
    ∀ (i : ℕ) (v : Voice), synth.state.voices[i]? = some v →
      ∃ v', (synth_note_off synth n).state.voices[i]? = some v' ∧
        (if v.note = n ∧ v.active = true
          then v' = { v with env1 := dsp_adsr_trigger_release v.env1 } ∧
            v'.env1.state.status = DspAdsrStatus.RELEASE
          else v' = v) ∧
        v'.env1.envelope = v.env1.envelope ∧
        v'.env1.state.value = v.env1.state.value ∧
        v'.env2 = v.env2 ∧
        v'.osc1 = v.osc1 ∧ v'.osc2 = v.osc2 ∧ v'.lfo1 = v.lfo1 ∧
        v'.note = v.note ∧ v'.velocity = v.velocity ∧ v'.active = v.active ∧
        v'.direction = v.direction ∧
        v'.fm_index_2_1 = v.fm_index_2_1 ∧ v'.fm_ratio_2_1 = v.fm_ratio_2_1 := by
  refine ⟨rfl, rfl, by simp [synth_note_off], ?_⟩
  intro i v hv
  by_cases hcond : v.note = n ∧ v.active = true
  · refine ⟨{ v with env1 := dsp_adsr_trigger_release v.env1 }, ?_, ?_⟩
    · simp [synth_note_off, hv, hcond.1, hcond.2]
    · rw [if_pos hcond]
      simp [dsp_adsr_trigger_release]
  · refine ⟨v, ?_, ?_⟩
    · simp [synth_note_off, hv, hcond]
    · rw [if_neg hcond]
      simp

/-- A two-voice synthesizer fixture in which both voices hold note 60 and are
active, used to witness C7. -/
def synthC7 : Synth :=
  { params := synthC5.params
    state := { gain_staging := 1/2
               voices := [voiceExample 60 true, voiceExample 60 true] } }

/-- Witness for C7 at a concrete input: voice 0 of `synthC7` matches and is
released. -/
theorem c7_note_off_releases_all_matching_active_witness :
    ∃ v', (synth_note_off synthC7 60).state.voices[0]? = some v' ∧
      (if (voiceExample 60 true).note = 60 ∧ (voiceExample 60 true).active = true
        then v' = { voiceExample 60 true with
          env1 := dsp_adsr_trigger_release (voiceExample 60 true).env1 } ∧
          v'.env1.state.status = DspAdsrStatus.RELEASE
        else v' = voiceExample 60 true) ∧
      v'.env1.envelope = (voiceExample 60 true).env1.envelope ∧
      v'.env1.state.value = (voiceExample 60 true).env1.state.value ∧
      v'.env2 = (voiceExample 60 true).env2 ∧
      v'.osc1 = (voiceExample 60 true).osc1 ∧
      v'.osc2 = (voiceExample 60 true).osc2 ∧
      v'.lfo1 = (voiceExample 60 true).lfo1 ∧
      v'.note = (voiceExample 60 true).note ∧
      v'.velocity = (voiceExample 60 true).velocity ∧
      v'.active = (voiceExample 60 true).active ∧
      v'.direction = (voiceExample 60 true).direction ∧
      v'.fm_index_2_1 = (voiceExample 60 true).fm_index_2_1 ∧
      v'.fm_ratio_2_1 = (voiceExample 60 true).fm_ratio_2_1 :=
  (c7_note_off_releases_all_matching_active synthC7 60).2.2.2 0
    (voiceExample 60 true) (by simp [synthC7])

/-! Section: C8, interpolation stays within the table range -/

theorem getD_mem_take (l : List ℚ) (L k : ℕ) (hk : k < L) (hl : k < l.length) :
    l.getD k 0 ∈ l.take L := by
  rw [List.getD_eq_getElem l 0 hl]
  exact List.getElem?_mem
    (by rw [List.getElem?_take_of_lt hk, List.getElem?_eq_getElem hl])

/-- C8: for a wavetable whose sample array extends past its nominal length by
at least one guard point replicating the table start, `dsp_wavetable_read2`
returns `samples[0]` at index 0, and for every fractional index in
`[0, length)` the interpolated value lies between the minimum and the maximum
of the first `length` samples. -/
theorem c8_read2_within_table_range (wt : Wavetable)
    (hpos : 0 < wt.length)
    (hglen : wt.length < wt.samples.length)
    (hguard : wt.samples.getD wt.length 0 = wt.samples.getD 0 0) :
    dsp_wavetable_read2 wt.samples 0 = wt.samples.getD 0 0 ∧
    ∀ (index : ℚ), 0 ≤ index → index < (wt.length : ℚ) →
      ∀ (mn mx : ℚ), (wt.samples.take wt.length).minimum = some mn →
        (wt.samples.take wt.length).maximum = some mx →
        mn ≤ dsp_wavetable_read2 wt.samples index ∧
        dsp_wavetable_read2 wt.samples index ≤ mx := by
  constructor
  · simp [dsp_wavetable_read2, intOfRat]
  · intro index h0 h1 mn mx hmn hmx
    have hint : intOfRat index = ⌊index⌋ := if_pos h0
    have hfl0 : 0 ≤ ⌊index⌋ := Int.floor_nonneg.mpr h0
    have hcast : ((⌊index⌋.toNat : ℤ) : ℚ) = (⌊index⌋ : ℚ) := by
      rw [Int.toNat_of_nonneg hfl0]
    have hkL : ⌊index⌋.toNat < wt.length := by
      have : ⌊index⌋ < (wt.length : ℤ) := Int.floor_lt.mpr (by exact_mod_cast h1)
      omega
    have hkl : ⌊index⌋.toNat < wt.samples.length := by omega
    have hf0 : 0 ≤ index - (⌊index⌋ : ℚ) := by
      have := Int.floor_le index
      linarith
    have hf1 : index - (⌊index⌋ : ℚ) ≤ 1 := by
      have := Int.lt_floor_add_one index
      linarith
    have hvmem : wt.samples.getD ⌊index⌋.toNat 0 ∈ wt.samples.take wt.length :=
      getD_mem_take _ _ _ hkL hkl
    have hvmem' : wt.samples.getD (⌊index⌋.toNat + 1) 0 ∈ wt.samples.take wt.length := by
      rcases Nat.lt_or_ge (⌊index⌋.toNat + 1) wt.length with hlt | hge
      · exact getD_mem_take _ _ _ hlt (by omega)
      · have heq : ⌊index⌋.toNat + 1 = wt.length := by omega
        rw [heq, hguard]
        exact getD_mem_take _ _ _ hpos (by omega)
    have hmn1 : mn ≤ wt.samples.getD ⌊index⌋.toNat 0 := List.minimum_le_of_mem hvmem hmn
    have hmx1 : wt.samples.getD ⌊index⌋.toNat 0 ≤ mx := List.le_maximum_of_mem hvmem hmx
    have hmn2 : mn ≤ wt.samples.getD (⌊index⌋.toNat + 1) 0 := List.minimum_le_of_mem hvmem' hmn
    have hmx2 : wt.samples.getD (⌊index⌋.toNat + 1) 0 ≤ mx := List.le_maximum_of_mem hvmem' hmx
    unfold dsp_wavetable_read2
    rw [hint]
    constructor
    · show mn ≤ wt.samples.getD ⌊index⌋.toNat 0 +
        (wt.samples.getD (⌊index⌋.toNat + 1) 0 - wt.samples.getD ⌊index⌋.toNat 0) *
          (index - ((⌊index⌋ : ℤ) : ℚ))
      nlinarith [mul_nonneg (sub_nonneg.mpr hmn2) hf0,
        mul_nonneg (sub_nonneg.mpr hmn1) (by linarith : (0:ℚ) ≤ 1 - (index - (⌊index⌋ : ℚ)))]
    · show wt.samples.getD ⌊index⌋.toNat 0 +
        (wt.samples.getD (⌊index⌋.toNat + 1) 0 - wt.samples.getD ⌊index⌋.toNat 0) *
          (index - ((⌊index⌋ : ℤ) : ℚ)) ≤ mx
      nlinarith [mul_nonneg (sub_nonneg.mpr hmx2) hf0,
        mul_nonneg (sub_nonneg.mpr hmx1) (by linarith : (0:ℚ) ≤ 1 - (index - (⌊index⌋ : ℚ)))]

/-- Witness for C8 on the concrete `wavetableExample` at index 3/2: the
interpolated value lies in [-1, 1], the range of the table. -/
theorem c8_read2_within_table_range_witness :
    dsp_wavetable_read2 wavetableExample.samples 0 = wavetableExample.samples.getD 0 0 ∧
    (-1 : ℚ) ≤ dsp_wavetable_read2 wavetableExample.samples (3/2) ∧
    dsp_wavetable_read2 wavetableExample.samples (3/2) ≤ 1 := by
  have h := c8_read2_within_table_range wavetableExample (by decide) (by decide) (by decide)
  exact ⟨h.1, h.2 (3/2) (by norm_num) (by norm_num [wavetableExample]) (-1) 1
    (by decide) (by decide)⟩

/-! Section: Sequencer (src/main/sequencer.c)

The sequencer drives the synthesizer through `synth_note_on` /
`synth_note_off`; those calls are modelled as an emitted event trace.  The
`rand()` stream is a parameter `rand : ℕ → ℕ` indexed by call order within
one `sequencer_process` invocation. -/

/-- A call the sequencer makes into the synthesizer. -/
inductive SequencerEvent where
  | noteOff (note : ℤ)
  | noteOn (note : ℤ) (velocity : ℚ)
deriving Repr, DecidableEq

/-- The struct `sequencer_note_t`. -/
structure SequencerNote where
  note : ℤ
  samples_remaining : ℤ
deriving Repr, DecidableEq

/-- The struct `sequencer_pimpl_t` (the synthesizer pointer is replaced by
the event trace; `durations` holds the quarter/eighth/sixteenth samples). -/
structure Sequencer where
  sample_rate : ℤ
  notes_available : List ℤ
  bpm : ℤ
  running : Bool
  durations : List ℤ
  pause_remaining : ℤ
  notes_playing : List SequencerNote
deriving Repr, DecidableEq

/-- The note-off pass of `sequencer_process` (sequencer.c lines 131-139):
slots already `≤ 0` are skipped; the others are decremented by the samples
passed, and a `note_off` is emitted for each slot crossing to `≤ 0`. -/
def sequencerOffScan : List SequencerNote → ℤ → List SequencerNote × List SequencerEvent
  | [], _ => ([], [])
  | sn :: rest, n =>
    if sn.samples_remaining ≤ 0 then
      let (rest', evs) := sequencerOffScan rest n
      (sn :: rest', evs)
    else
      let sn' : SequencerNote := { sn with samples_remaining := sn.samples_remaining - n }
      let here := if sn'.samples_remaining ≤ 0 then [SequencerEvent.noteOff sn.note] else []
      let (rest', evs) := sequencerOffScan rest n
      (sn' :: rest', here ++ evs)

/-- Embedding of `sequencer_process` (sequencer.c lines 129-169).  After the
note-off pass: return if not running; subtract the samples passed from the
(signed) pause and return while it stays positive; otherwise draw a new
random pause and start one random note in the first free slot. -/
def sequencer_process (seq : Sequencer) (n_samples_passed : ℤ) (rand : ℕ → ℕ) :
    Sequencer × List SequencerEvent :=
  let (notes', offs) := sequencerOffScan seq.notes_playing n_samples_passed
  if seq.running = false then ({ seq with notes_playing := notes' }, offs)
  else
    let pause := seq.pause_remaining - n_samples_passed
    if pause > 0 then
      ({ seq with notes_playing := notes', pause_remaining := pause }, offs)
    else
      let pause_duration := rand 0 % 3
      let new_pause := seq.durations.getD pause_duration 0
      match notes'.findIdx? (fun sn => sn.samples_remaining ≤ 0) with
      | none =>
        ({ seq with notes_playing := notes', pause_remaining := new_pause }, offs)
      | some i =>
        let note_index := rand 1 % seq.notes_available.length
        let note_duration := rand 2 % 3
        let velocity := ((rand 3 % 256 : ℕ) : ℚ) / 255
        let note := seq.notes_available.getD note_index 0
        let sn' : SequencerNote :=
          { note := note, samples_remaining := seq.durations.getD note_duration 0 }
        ({ seq with notes_playing := notes'.set i sn', pause_remaining := new_pause },
          offs ++ [SequencerEvent.noteOn note velocity])

theorem sequencerOffScan_only_note_offs (l : List SequencerNote) (n : ℤ) :
    ∀ e ∈ (sequencerOffScan l n).2, ∃ note, e = SequencerEvent.noteOff note := by
  induction l with
  | nil => intro e he; simp [sequencerOffScan] at he
  | cons sn rest ih =>
    intro e he
    unfold sequencerOffScan at he
    split_ifs at he with h1
    · exact ih e he
    · simp only at he
      rcases List.mem_append.mp he with h2 | h2
      · split_ifs at h2
        · rcases List.mem_singleton.mp h2 with rfl
          exact ⟨sn.note, rfl⟩
        · simp at h2
      · exact ih e h2

/-- C9: while the sequencer is stopped (`running == false`),
`sequencer_process` never emits a note-on — only note-offs for expiring
slots. -/
theorem c9_stopped_sequencer_never_starts_note (seq : Sequencer)
    (n_samples_passed : ℤ) (rand : ℕ → ℕ) (h : seq.running = false) :
    ∀ (note : ℤ) (velocity : ℚ),
      SequencerEvent.noteOn note velocity ∉ (sequencer_process seq n_samples_passed rand).2 := by
  intro note velocity hmem
  unfold sequencer_process at hmem
  rw [h] at hmem
  simp only [if_pos rfl] at hmem
  obtain ⟨m, hm⟩ := sequencerOffScan_only_note_offs seq.notes_playing n_samples_passed _ hmem
  exact SequencerEvent.noConfusion hm

/-- A stopped sequencer fixture with one sounding slot about to expire. -/
def seqC9 : Sequencer :=
  { sample_rate := 44100
    notes_available := [60, 62, 64, 65, 67, 69, 71, 72]
    bpm := 80
    running := false
    durations := [33075, 16537, 8268]
    pause_remaining := 0
    notes_playing :=
      [{ note := 60, samples_remaining := 100 }, { note := 0, samples_remaining := 0 }] }

/-- Witness for C9 at a concrete input: a block of 256 samples on the stopped
fixture emits no note-on. -/
theorem c9_stopped_sequencer_never_starts_note_witness :
    SequencerEvent.noteOn 60 1 ∉ (sequencer_process seqC9 256 (fun _ => 0)).2 :=
  c9_stopped_sequencer_never_starts_note seqC9 256 (fun _ => 0) rfl 60 1

/-! Section: Render loop `synth_process` (src/main/synth.c lines 182-205) -/

/-- The per-voice work of one stereo frame (synth.c lines 186-196):
modulator tick, carrier tick with linear FM, LFO-driven pan, equal-power
split. -/
def synthVoiceTick (g : PanGlobals) (gain_staging : ℚ) (voice : Voice) :
    Voice × ℚ × ℚ :=
  let t2 := dsp_oscil_tick voice.osc2 0
  let e2 := dsp_adsr_tick voice.env2
  let sample2 := t2.2 * e2.2 * voice.fm_index_2_1
  let t1 := dsp_oscil_tick voice.osc1 sample2
  let e1 := dsp_adsr_tick voice.env1
  let sample1 := t1.2 * e1.2 * gain_staging
  let tl := dsp_oscil_tick voice.lfo1 0
  let pan := tl.2 * 0.75
  let lr := dsp_pan_stereo g sample1 pan
  ({ voice with osc1 := t1.1, env1 := e1.1, lfo1 := tl.1, osc2 := t2.1, env2 := e2.1 },
    lr.1, lr.2)

/-- One stereo frame: every voice is ticked (inactive ones too) and the left
and right contributions are summed. -/
def synthFrame (g : PanGlobals) (gain_staging : ℚ) :
    List Voice → List Voice × ℚ × ℚ
  | [] => ([], 0, 0)
  | voice :: rest =>
    let (voice', l, r) := synthVoiceTick g gain_staging voice
    let (rest', ls, rs) := synthFrame g gain_staging rest
    (voice' :: rest', l + ls, r + rs)

/-- The mixing loop of `synth_process`: the interleaved stereo buffer is
consumed two samples at a time, accumulating each frame's sums into the
existing buffer contents.  The firmware always passes an even length; an odd
trailing sample (on which the C loop would write past the buffer) is left
unchanged. -/
def synthRenderFrames (g : PanGlobals) (gain_staging : ℚ) :
    List Voice → List ℚ → List Voice × List ℚ
  | voices, [] => (voices, [])
  | voices, [a] => (voices, [a])
  | voices, a :: b :: rest =>
    let (voices', l, r) := synthFrame g gain_staging voices
    let (voices'', rest') := synthRenderFrames g gain_staging voices' rest
    (voices'', (a + l) :: (b + r) :: rest')

/-- Embedding of `synth_process` (synth.c lines 182-205): render all frames,
then set each voice's `active` flag from its carrier envelope status. -/
def synth_process (g : PanGlobals) (synth : Synth) (audio_buffer : List ℚ) :
    Synth × List ℚ :=
  let (voices', buffer') :=
    synthRenderFrames g synth.state.gain_staging synth.state.voices audio_buffer
  let voices'' := voices'.map (fun voice =>
    { voice with active := decide (voice.env1.state.status ≠ DspAdsrStatus.STOPPED) })
  ({ synth with state.voices := voices'' }, buffer')

/-- C10: two synthesizer states that differ only in `params.volume` produce
the same audio and the same successor state up to that same volume field:
`synth_process` never reads the volume, so `synth_set_volume` has no effect
on rendered audio. -/
theorem c10_volume_never_read_in_render_path (g : PanGlobals) (synth : Synth)
    (volume : ℚ) (audio_buffer : List ℚ) :
    (synth_process g (synth_set_volume synth volume) audio_buffer).2 =
      (synth_process g synth audio_buffer).2 ∧
    (synth_process g (synth_set_volume synth volume) audio_buffer).1 =
      synth_set_volume (synth_process g synth audio_buffer).1 volume :=
  ⟨rfl, rfl⟩

end Klimper
